import Mathlib

/-!
Verification development for a grid-world warehouse-robot simulator
(source: part3 of the repository — warehouse_robot.py, oop_project_env.py,
agents.py, trainer.py).

The Python code is shallowly embedded:
- positions and grid dimensions are Python ints, embedded as Int;
- rewards are Python floats drawn from the exact set {0, -0.2, -1, 1},
  embedded as rationals (the collision penalty -0.2 is -(1/5));
- the pygame rendering layer carries no algorithmic content and is omitted;
- randomness (seeded target draws, obstacle placement draws, random-agent
  sampling) is embedded by passing the drawn values, or the drawing
  function, as explicit parameters.
-/

namespace WarehouseSpec

/-- Embeds the RobotAction enum of warehouse_robot.py
(LEFT = 0, DOWN = 1, RIGHT = 2, UP = 3). -/
inductive RobotAction where
  | LEFT
  | DOWN
  | RIGHT
  | UP
deriving DecidableEq, Repr

/-- Numeric value of each action, as in the Python enum. -/
def RobotAction.toInt : RobotAction → Int
  | .LEFT => 0
  | .DOWN => 1
  | .RIGHT => 2
  | .UP => 3

/-- Embeds the Python conversion RobotAction(n): succeeds exactly on
the enum values 0..3 (Python raises ValueError otherwise, embedded as none). -/
def robotActionOfInt (n : Int) : Option RobotAction :=
  if n = 0 then some .LEFT
  else if n = 1 then some .DOWN
  else if n = 2 then some .RIGHT
  else if n = 3 then some .UP
  else none

/-- State of warehouse_robot.WarehouseRobot relevant to the simulation:
grid dimensions, robot position and target position (rendering fields
such as fps, sprites and last_action are omitted). Positions are
(row, col) pairs. -/
structure WarehouseRobot where
  grid_rows : Int
  grid_cols : Int
  robot_pos : Int × Int
  target_pos : Int × Int
deriving DecidableEq, Repr

/-- Embeds WarehouseRobot.perform_action (warehouse_robot.py lines
112-130): moves the robot one cell in the action direction, clamped at
the grid boundary, and reports whether the robot now sits on the target. -/
def WarehouseRobot.perform_action (w : WarehouseRobot) (a : RobotAction) :
    WarehouseRobot × Bool :=
  let p := w.robot_pos
  let p2 : Int × Int :=
    match a with
    | .LEFT => if p.2 > 0 then (p.1, p.2 - 1) else p
    | .RIGHT => if p.2 < w.grid_cols - 1 then (p.1, p.2 + 1) else p
    | .UP => if p.1 > 0 then (p.1 - 1, p.2) else p
    | .DOWN => if p.1 < w.grid_rows - 1 then (p.1 + 1, p.2) else p
  let w2 := { w with robot_pos := p2 }
  (w2, decide (w2.robot_pos = w2.target_pos))

/-- Result tuple of an environment step: (observation, reward, terminated,
truncated). The info dictionary is always empty in the source and is
omitted. -/
structure StepResult where
  obs : List Int
  reward : ℚ
  terminated : Bool
  truncated : Bool
deriving DecidableEq, Repr

/-- Observation of the basic environment:
[robot_row, robot_col, target_row, target_col]
(np.concatenate of robot_pos and target_pos). -/
def basicObs (w : WarehouseRobot) : List Int :=
  [w.robot_pos.1, w.robot_pos.2, w.target_pos.1, w.target_pos.2]

/-- Embeds WarehouseRobotEnv.step (oop_project_env.py lines 89-117):
applies the action, then reward = 1 and terminated exactly when
perform_action reported the target reached; truncated is always False. -/
def WarehouseRobotEnv.step (w : WarehouseRobot) (a : RobotAction) :
    WarehouseRobot × StepResult :=
  let pr := w.perform_action a
  let target_reached := pr.2
  let w2 := pr.1
  let reward : ℚ := if target_reached then 1 else 0
  let terminated : Bool := if target_reached then true else false
  (w2, ⟨basicObs w2, reward, terminated, false⟩)

/-- Embeds WarehouseRobot.reset (warehouse_robot.py lines 101-110) given
the seeded generator: robot at (0,0), target at
(randint seed 0 1 (grid_rows - 1), randint seed 1 1 (grid_cols - 1)).
The parameter randint models Python random: randint s k lo hi is the
value returned by the k-th call to random.randint(lo, hi) after
random.seed(s); the call is inclusive on both ends, so a caller may
assume lo ≤ randint s k lo hi ≤ hi whenever lo ≤ hi. -/
def WarehouseRobot.reset (randint : Int → Nat → Int → Int → Int)
    (grid_rows grid_cols : Int) (seed : Int) : WarehouseRobot :=
  { grid_rows := grid_rows
    grid_cols := grid_cols
    robot_pos := (0, 0)
    target_pos := (randint seed 0 1 (grid_rows - 1),
                   randint seed 1 1 (grid_cols - 1)) }

/-- Embeds WarehouseRobotEnv.reset (oop_project_env.py lines 68-87):
resets the robot and returns the initial observation. -/
def WarehouseRobotEnv.reset (randint : Int → Nat → Int → Int → Int)
    (grid_rows grid_cols : Int) (seed : Int) : WarehouseRobot × List Int :=
  let w := WarehouseRobot.reset randint grid_rows grid_cols seed
  (w, basicObs w)

/-- State of AdvancedWarehouseRobotEnv: the underlying robot plus
max_battery, num_obstacles, the battery counter and the obstacle list
(oop_project_env.py lines 136-153). The assignments of obstacles and
battery onto the renderer object are display-only and are omitted. -/
structure AdvancedEnv where
  robot : WarehouseRobot
  max_battery : Int
  num_obstacles : Nat
  battery : Int
  obstacles : List (Int × Int)
deriving DecidableEq, Repr

/-- Observation of the advanced environment (_get_obs, oop_project_env.py
lines 249-259): [robot_row, robot_col, target_row, target_col, battery]. -/
def advObs (e : AdvancedEnv) : List Int :=
  [e.robot.robot_pos.1, e.robot.robot_pos.2,
   e.robot.target_pos.1, e.robot.target_pos.2, e.battery]

/-- Embeds AdvancedWarehouseRobotEnv.step (oop_project_env.py lines
207-247). In source order: record old_pos; perform_action (its Boolean,
computed on the pre-reversion position, is target_reached); if the new
position is an obstacle, revert to old_pos and set reward = -0.2;
decrement battery; if battery ≤ 0, reward = -1 and terminated; if
target_reached, reward = 1 and terminated; truncated is always False. -/
def AdvancedEnv.step (e : AdvancedEnv) (a : RobotAction) :
    AdvancedEnv × StepResult :=
  let old_pos := e.robot.robot_pos
  let pr := e.robot.perform_action a
  let target_reached := pr.2
  let new_pos := pr.1.robot_pos
  let w2 := if new_pos ∈ e.obstacles then { pr.1 with robot_pos := old_pos } else pr.1
  let reward0 : ℚ := if new_pos ∈ e.obstacles then -(1/5) else 0
  let battery2 := e.battery - 1
  let reward1 : ℚ := if battery2 ≤ 0 then -1 else reward0
  let terminated1 : Bool := if battery2 ≤ 0 then true else false
  let reward2 : ℚ := if target_reached then 1 else reward1
  let terminated2 : Bool := if target_reached then true else terminated1
  let e2 : AdvancedEnv := { e with robot := w2, battery := battery2 }
  (e2, ⟨advObs e2, reward2, terminated2, false⟩)

/-- The target_reached flag of an advanced step: perform_action's Boolean,
evaluated on the post-move, pre-reversion robot position. -/
def advGoal (e : AdvancedEnv) (a : RobotAction) : Bool :=
  (e.robot.perform_action a).2

/-- Whether the tentative post-move position of an advanced step lies in
the obstacle list (the collision test of AdvancedWarehouseRobotEnv.step). -/
def advCollides (e : AdvancedEnv) (a : RobotAction) : Bool :=
  decide ((e.robot.perform_action a).1.robot_pos ∈ e.obstacles)

/-- Embeds the obstacle-placement loop of AdvancedWarehouseRobotEnv.reset
(oop_project_env.py lines 177-193). The rng draws (r, c) are modeled by
the stream of candidate positions; the loop skips a candidate equal to
the robot position, equal to the target position, or already placed, and
otherwise appends it, until num_obstacles obstacles are placed. The
Python loop spins forever if it runs out of fresh candidates; here the
finite stream running dry yields none. -/
def placeObstacles (robot target : Int × Int) (num_obstacles : Nat) :
    List (Int × Int) → List (Int × Int) → Option (List (Int × Int))
  | acc, [] => if acc.length < num_obstacles then none else some acc
  | acc, pos :: rest =>
    if acc.length < num_obstacles then
      if pos = robot ∨ pos = target ∨ pos ∈ acc then
        placeObstacles robot target num_obstacles acc rest
      else
        placeObstacles robot target num_obstacles (acc ++ [pos]) rest
    else some acc

/-- Embeds AdvancedWarehouseRobotEnv.reset (oop_project_env.py lines
170-205): the basic reset puts the robot at (0,0) and draws the target,
the battery is refilled to max_battery, and obstacles are placed by the
retry loop, excluding the robot start and the target. -/
def AdvancedEnv.reset (randint : Int → Nat → Int → Int → Int)
    (grid_rows grid_cols max_battery : Int) (num_obstacles : Nat)
    (seed : Int) (stream : List (Int × Int)) : Option AdvancedEnv :=
  let w := WarehouseRobot.reset randint grid_rows grid_cols seed
  match placeObstacles w.robot_pos w.target_pos num_obstacles [] stream with
  | some obss => some
      { robot := w
        max_battery := max_battery
        num_obstacles := num_obstacles
        battery := max_battery
        obstacles := obss }
  | none => none

/-- Embeds the candidate-list construction of GreedyAgent.select_action
(agents.py lines 102-132) on the four observation fields: DOWN (1) when
robot_row < target_row, else UP (3) when robot_row > target_row; and,
when the rows are equal, RIGHT (2) when robot_col < target_col, else
LEFT (0) when robot_col > target_col. -/
def greedyCandidates (robot_row robot_col target_row target_col : Int) :
    List Int :=
  let vertical : List Int :=
    if robot_row < target_row then [1]
    else if robot_row > target_row then [3]
    else []
  let horizontal : List Int :=
    if robot_row = target_row then
      (if robot_col < target_col then [2]
       else if robot_col > target_col then [0]
       else [])
    else []
  vertical ++ horizontal

/-- GreedyAgent.select_action with its randomness resolved: when the
candidate list is nonempty, random.choice of it — which, the list having
at most one element, is its head; when it is empty the agent falls back
to a uniformly random action from the action space, modeled as none. -/
def greedySelect (robot_row robot_col target_row target_col : Int) :
    Option Int :=
  (greedyCandidates robot_row robot_col target_row target_col).head?

/-- One step of the basic environment driven by the greedy agent: the
agent reads (robot_row, robot_col, target_row, target_col) from the
observation and the environment applies RobotAction(action). The
fallback branches (robot already on the target, or an action value
outside 0..3, which never arises from a candidate) leave the state
unchanged. -/
def greedyEnvStep (w : WarehouseRobot) : WarehouseRobot :=
  match greedySelect w.robot_pos.1 w.robot_pos.2 w.target_pos.1 w.target_pos.2 with
  | some n =>
    match robotActionOfInt n with
    | some a => (WarehouseRobotEnv.step w a).1
    | none => w
  | none => w

/-- Iterated greedy stepping of the basic environment. -/
def greedyIter : Nat → WarehouseRobot → WarehouseRobot
  | 0, w => w
  | k + 1, w => greedyIter k (greedyEnvStep w)

/-- Manhattan distance between two grid positions. -/
def manhattan (p q : Int × Int) : Nat :=
  (p.1 - q.1).natAbs + (p.2 - q.2).natAbs

/-- Loop of Trainer.run_episode (trainer.py lines 92-116), generic in the
environment state type σ and the action type α, exactly as the Python
Trainer is generic in env and agent. One iteration: ask the agent for an
action on the current observation, step the environment, add the reward,
increment steps, set done when terminated or truncated, set success when
terminated with strictly positive reward, and force done when the step
cap (if set) has been reached. On exit the accumulated
(total_reward, success, steps) triple is returned together with the last
step's StepResult (the loop locals reward/terminated/truncated at exit),
kept so that theorems can speak about the final step; run_episode below
projects it away as the source does. The fuel argument bounds the number
of iterations modeled; none means the loop was still running when fuel
ran out (the Python loop has no such bound and can spin forever). -/
def run_episodeAux {σ α : Type} (stepf : σ → α → σ × StepResult)
    (select_action : List Int → α) (max_steps_per_episode : Option Nat) :
    Nat → σ → List Int → ℚ → Nat → Bool →
    Option ((ℚ × Bool × Nat) × StepResult)
  | 0, _, _, _, _, _ => none
  | fuel + 1, st, obs, total_reward, steps, success =>
    let action := select_action obs
    let out := stepf st action
    let total2 := total_reward + out.2.reward
    let steps2 := steps + 1
    let done : Bool := out.2.terminated || out.2.truncated
    let success2 : Bool :=
      if out.2.terminated && decide (out.2.reward > 0) then true else success
    let done2 : Bool :=
      match max_steps_per_episode with
      | some cap => if steps2 ≥ cap then true else done
      | none => done
    if done2 then some ((total2, success2, steps2), out.2)
    else run_episodeAux stepf select_action max_steps_per_episode fuel
      out.1 out.2.obs total2 steps2 success2

/-- Embeds Trainer.run_episode (trainer.py lines 58-117): reset the
environment (the initial state and observation are the resetSt argument),
then loop until done, returning (total_reward, success, steps). -/
def run_episode {σ α : Type} (stepf : σ → α → σ × StepResult)
    (select_action : List Int → α) (max_steps_per_episode : Option Nat)
    (fuel : Nat) (resetSt : σ × List Int) : Option (ℚ × Bool × Nat) :=
  (run_episodeAux stepf select_action max_steps_per_episode fuel
    resetSt.1 resetSt.2 0 0 false).map Prod.fst

/-- Aggregation shared by Trainer.train (trainer.py lines 147-168) and
Trainer.evaluate (lines 207-228): run num_episodes episodes, sum rewards,
steps and successes, and divide by num_episodes when it is positive,
otherwise report zeros. The per-episode outcomes are modeled by the
episode function: episode i is the (total_reward, success, steps) triple
of the i-th run_episode call. The returned triple is
(success_rate, avg_reward, avg_steps). -/
def aggregateStats (episode : Nat → ℚ × Bool × Nat) (num_episodes : Nat) :
    ℚ × ℚ × ℚ :=
  let totals :=
    (List.range num_episodes).foldl
      (fun (acc : ℚ × Nat × Nat) i =>
        let out := episode i
        (acc.1 + out.1, acc.2.1 + (if out.2.1 then 1 else 0),
         acc.2.2 + out.2.2))
      (0, 0, 0)
  let success_rate : ℚ :=
    if num_episodes > 0 then (totals.2.1 : ℚ) / (num_episodes : ℚ) else 0
  let avg_reward : ℚ :=
    if num_episodes > 0 then totals.1 / (num_episodes : ℚ) else 0
  let avg_steps : ℚ :=
    if num_episodes > 0 then (totals.2.2 : ℚ) / (num_episodes : ℚ) else 0
  (success_rate, avg_reward, avg_steps)

/-- Embeds Trainer.train (trainer.py lines 119-176): runs each episode
with train = True and aggregates. The episode function gives the outcome
of run_episode for the given train flag and episode index. -/
def Trainer.train (episode : Bool → Nat → ℚ × Bool × Nat)
    (num_episodes : Nat) : ℚ × ℚ × ℚ :=
  aggregateStats (episode true) num_episodes

/-- Embeds Trainer.evaluate (trainer.py lines 178-235): identical
aggregation with train = False. -/
def Trainer.evaluate (episode : Bool → Nat → ℚ × Bool × Nat)
    (num_episodes : Nat) : ℚ × ℚ × ℚ :=
  aggregateStats (episode false) num_episodes

/-- perform_action never changes the target position. -/
theorem perform_action_target (w : WarehouseRobot) (a : RobotAction) :
    (w.perform_action a).1.target_pos = w.target_pos := by
  cases a <;> rfl

/-- perform_action never changes the grid dimensions. -/
theorem perform_action_dims (w : WarehouseRobot) (a : RobotAction) :
    (w.perform_action a).1.grid_rows = w.grid_rows ∧
    (w.perform_action a).1.grid_cols = w.grid_cols := by
  cases a <;> exact ⟨rfl, rfl⟩

/-- The Boolean returned by perform_action decides whether the moved-to
position is the target. -/
theorem perform_action_snd (w : WarehouseRobot) (a : RobotAction) :
    (w.perform_action a).2 =
      decide ((w.perform_action a).1.robot_pos = w.target_pos) := by
  cases a <;> rfl

/-- Every obstacle placed by the retry loop is either an obstacle already
in the accumulator or distinct from both the robot and the target. -/
theorem placeObstacles_excludes (robot target : Int × Int) (n : Nat) :
    ∀ (stream acc res : List (Int × Int)),
      placeObstacles robot target n acc stream = some res →
      ∀ p ∈ res, p ∈ acc ∨ (p ≠ robot ∧ p ≠ target) := by
  intro stream
  induction stream with
  | nil =>
    intro acc res h p hp
    simp only [placeObstacles] at h
    split_ifs at h
    exact Or.inl (by simpa [← Option.some_inj.mp h] using hp)
  | cons pos rest ih =>
    intro acc res h p hp
    simp only [placeObstacles] at h
    by_cases hlen : acc.length < n
    · rw [if_pos hlen] at h
      by_cases hskip : pos = robot ∨ pos = target ∨ pos ∈ acc
      · rw [if_pos hskip] at h
        exact (ih acc res h p hp).imp_left id
      · rw [if_neg hskip] at h
        rcases ih (acc ++ [pos]) res h p hp with hin | hout
        · rcases List.mem_append.mp hin with hin2 | hin2
          · exact Or.inl hin2
          · have hpe : p = pos := by simpa using hin2
            subst hpe
            push_neg at hskip
            exact Or.inr ⟨hskip.1, hskip.2.1⟩
        · exact Or.inr hout
    · rw [if_neg hlen] at h
      exact Or.inl (by simpa [← Option.some_inj.mp h] using hp)

/-- The robot position after an advanced step: the pre-move position when
the tentative position hit an obstacle, the tentative position otherwise. -/
theorem adv_step_pos_eq (e : AdvancedEnv) (a : RobotAction) :
    (AdvancedEnv.step e a).1.robot.robot_pos =
      (if (e.robot.perform_action a).1.robot_pos ∈ e.obstacles then
        e.robot.robot_pos else (e.robot.perform_action a).1.robot_pos) := by
  simp only [AdvancedEnv.step]
  split_ifs <;> rfl

/-- The reward of an advanced step, with the source's three assignments
folded into nested conditionals, goal check outermost. -/
theorem adv_step_reward_eq (e : AdvancedEnv) (a : RobotAction) :
    (AdvancedEnv.step e a).2.reward =
      (if (e.robot.perform_action a).2 then 1
       else if e.battery - 1 ≤ 0 then -1
       else if (e.robot.perform_action a).1.robot_pos ∈ e.obstacles then -(1/5)
       else 0) := by
  rfl

/-- The terminated flag of an advanced step: goal flag or battery
exhaustion. -/
theorem adv_step_terminated_eq (e : AdvancedEnv) (a : RobotAction) :
    (AdvancedEnv.step e a).2.terminated =
      ((e.robot.perform_action a).2 || decide (e.battery - 1 ≤ 0)) := by
  simp only [AdvancedEnv.step]
  split_ifs <;> simp_all

/-- C1: the advanced step decrements the battery by exactly one; when the
goal flag is down and the decremented battery is ≤ 0 the step returns
reward -1 with terminated = true, whatever collision penalty was assigned
earlier in the step; and whenever the goal flag is up the step returns
reward 1 with terminated = true, in particular on the very step the
battery reaches zero (the goal assignment comes after the battery
assignment and wins). -/
theorem advanced_step_battery_goal_spec (e : AdvancedEnv) (a : RobotAction) :
    (AdvancedEnv.step e a).1.battery = e.battery - 1 ∧
    (advGoal e a = false → e.battery - 1 ≤ 0 →
      (AdvancedEnv.step e a).2.reward = -1 ∧
      (AdvancedEnv.step e a).2.terminated = true) ∧
    (advGoal e a = true →
      (AdvancedEnv.step e a).2.reward = 1 ∧
      (AdvancedEnv.step e a).2.terminated = true) ∧
    (advGoal e a = true → e.battery - 1 ≤ 0 →
      (AdvancedEnv.step e a).2.reward = 1 ∧
      (AdvancedEnv.step e a).2.terminated = true) := by
  simp only [AdvancedEnv.step, advGoal]
  split_ifs <;> simp_all

/-- Witness for advanced_step_battery_goal_spec: on a 4 by 5 grid with
the robot one cell left of the target and battery 1, a RIGHT step reaches
the goal on the step the battery hits zero and still returns reward 1;
with the robot boxed on the target cell of another instance whose battery
is 1, stepping RIGHT into the obstacle at (2,4) exhausts the battery and
returns reward -1 despite the collision penalty. -/
theorem advanced_step_battery_goal_witness :
    (AdvancedEnv.step ⟨⟨4, 5, (2, 2), (2, 3)⟩, 30, 0, 1, []⟩ .RIGHT).2.reward = 1 ∧
    (AdvancedEnv.step ⟨⟨4, 5, (2, 2), (2, 3)⟩, 30, 0, 1, []⟩ .RIGHT).2.terminated = true ∧
    (AdvancedEnv.step ⟨⟨4, 5, (2, 3), (2, 3)⟩, 30, 1, 1, [(2, 4)]⟩ .RIGHT).2.reward = -1 ∧
    (AdvancedEnv.step ⟨⟨4, 5, (2, 3), (2, 3)⟩, 30, 1, 1, [(2, 4)]⟩ .RIGHT).1.battery = 0 := by
  refine ⟨?_, ?_, ?_, ?_⟩
  · exact ((advanced_step_battery_goal_spec
      ⟨⟨4, 5, (2, 2), (2, 3)⟩, 30, 0, 1, []⟩ .RIGHT).2.2.2 (by decide) (by decide)).1
  · exact ((advanced_step_battery_goal_spec
      ⟨⟨4, 5, (2, 2), (2, 3)⟩, 30, 0, 1, []⟩ .RIGHT).2.2.2 (by decide) (by decide)).2
  · exact ((advanced_step_battery_goal_spec
      ⟨⟨4, 5, (2, 3), (2, 3)⟩, 30, 1, 1, [(2, 4)]⟩ .RIGHT).2.1 (by decide) (by decide)).1
  · simpa using (advanced_step_battery_goal_spec
      ⟨⟨4, 5, (2, 3), (2, 3)⟩, 30, 1, 1, [(2, 4)]⟩ .RIGHT).1

/-- C2 as frozen quantifies over every state, but the code evaluates the
goal flag on the pre-reversion position, so it fails on states the claim
range includes: (first conjunct) with the robot already on the target
(2,3) of a 4 by 5 grid and an obstacle at (2,4), a RIGHT step reverts to
the target cell, so the end-of-step position equals target_position, yet
the reward is the collision penalty -0.2 and terminated is false;
(second conjunct) with the target (2,3) itself in the obstacle list and
the robot at (2,2), a RIGHT step returns reward 1 and terminated = true
even though the reverted end-of-step position (2,2) is not the target. -/
theorem advanced_step_goal_counterexample :
    (¬ (((AdvancedEnv.step ⟨⟨4, 5, (2, 3), (2, 3)⟩, 30, 1, 30, [(2, 4)]⟩ .RIGHT).2.reward = 1 ∧
        (AdvancedEnv.step ⟨⟨4, 5, (2, 3), (2, 3)⟩, 30, 1, 30, [(2, 4)]⟩ .RIGHT).2.terminated = true) ↔
        (AdvancedEnv.step ⟨⟨4, 5, (2, 3), (2, 3)⟩, 30, 1, 30, [(2, 4)]⟩ .RIGHT).1.robot.robot_pos =
          (2, 3))) ∧
    (¬ (((AdvancedEnv.step ⟨⟨4, 5, (2, 2), (2, 3)⟩, 30, 1, 30, [(2, 3)]⟩ .RIGHT).2.reward = 1 ∧
        (AdvancedEnv.step ⟨⟨4, 5, (2, 2), (2, 3)⟩, 30, 1, 30, [(2, 3)]⟩ .RIGHT).2.terminated = true) ↔
        (AdvancedEnv.step ⟨⟨4, 5, (2, 2), (2, 3)⟩, 30, 1, 30, [(2, 3)]⟩ .RIGHT).1.robot.robot_pos =
          (2, 3))) := by
  constructor <;>
    · rw [adv_step_reward_eq, adv_step_terminated_eq, adv_step_pos_eq]
      norm_num [WarehouseRobot.perform_action]

/-- C2 amended: restricted to the states an episode can actually reach —
the robot is not already standing on the target and the target cell is
not in the obstacle list (reset guarantees both and steps preserve them)
— the advanced step returns reward 1 with terminated = true exactly when
the position held at the end of the step equals target_position; the
end-of-step position is the pre-move position when the move was reverted
and the moved-to position otherwise. -/
theorem advanced_step_goal_position_spec (e : AdvancedEnv) (a : RobotAction)
    (htarget : e.robot.target_pos ∉ e.obstacles)
    (hpos : e.robot.robot_pos ≠ e.robot.target_pos) :
    (((AdvancedEnv.step e a).2.reward = 1 ∧
      (AdvancedEnv.step e a).2.terminated = true) ↔
      (AdvancedEnv.step e a).1.robot.robot_pos = e.robot.target_pos) ∧
    (advCollides e a = true →
      (AdvancedEnv.step e a).1.robot.robot_pos = e.robot.robot_pos) ∧
    (advCollides e a = false →
      (AdvancedEnv.step e a).1.robot.robot_pos =
        (e.robot.perform_action a).1.robot_pos) := by
  have hsnd := perform_action_snd e.robot a
  refine ⟨?_, ?_, ?_⟩
  · rw [adv_step_reward_eq, adv_step_terminated_eq, adv_step_pos_eq]
    by_cases hgoal : (e.robot.perform_action a).1.robot_pos = e.robot.target_pos
    · have hmem : (e.robot.perform_action a).1.robot_pos ∉ e.obstacles := by
        rw [hgoal]; exact htarget
      have htr : (e.robot.perform_action a).2 = true := by
        rw [hsnd]; simpa using hgoal
      simp [htr, hmem, hgoal, htarget]
    · have htr : (e.robot.perform_action a).2 = false := by
        rw [hsnd]; simpa using hgoal
      simp only [htr, Bool.false_or, if_false, Bool.false_eq_true]
      split_ifs <;> simp_all <;> norm_num
  · intro hc
    rw [adv_step_pos_eq]
    simp only [advCollides, decide_eq_true_eq] at hc
    simp [hc]
  · intro hc
    rw [adv_step_pos_eq]
    simp only [advCollides, decide_eq_false_iff_not] at hc
    simp [hc]

/-- Witness for advanced_step_goal_position_spec on a 4 by 5 grid with
the robot at (2,2), the target at (2,3) not among the obstacles and an
obstacle at (1,2): a RIGHT step ends on the target with reward 1. -/
theorem advanced_step_goal_position_witness :
    (AdvancedEnv.step ⟨⟨4, 5, (2, 2), (2, 3)⟩, 30, 1, 30, [(1, 2)]⟩ .RIGHT).1.robot.robot_pos =
      (2, 3) ∧
    (AdvancedEnv.step ⟨⟨4, 5, (2, 2), (2, 3)⟩, 30, 1, 30, [(1, 2)]⟩ .RIGHT).2.reward = 1 := by
  have h := advanced_step_goal_position_spec
    ⟨⟨4, 5, (2, 2), (2, 3)⟩, 30, 1, 30, [(1, 2)]⟩ .RIGHT (by decide) (by decide)
  exact ⟨h.2.2 (by decide), (h.1.mpr (h.2.2 (by decide))).1⟩

/-- C3: when the tentative post-move position is an obstacle, the
advanced step leaves the whole state unchanged apart from the battery
decrement (the robot keeps its pre-move position); in that case the
reward is the collision penalty -0.2 = -(1/5) whenever neither terminal
condition overrides it; a robot not standing on an obstacle never stands
on one after a step; and every state produced by reset has the robot at
(0,0) with the obstacles excluding both (0,0) and the target, so the
invariant holds from reset onward. -/
theorem advanced_step_obstacle_spec :
    (∀ (e : AdvancedEnv) (a : RobotAction), advCollides e a = true →
      (AdvancedEnv.step e a).1 = { e with battery := e.battery - 1 }) ∧
    (∀ (e : AdvancedEnv) (a : RobotAction), advCollides e a = true →
      e.battery - 1 > 0 → advGoal e a = false →
      (AdvancedEnv.step e a).2.reward = -(1/5)) ∧
    (∀ (e : AdvancedEnv) (a : RobotAction),
      e.robot.robot_pos ∉ e.obstacles →
      (AdvancedEnv.step e a).1.robot.robot_pos ∉
        (AdvancedEnv.step e a).1.obstacles) ∧
    (∀ (randint : Int → Nat → Int → Int → Int) (gr gc mb : Int) (nobs : Nat)
       (seed : Int) (stream : List (Int × Int)) (e : AdvancedEnv),
      AdvancedEnv.reset randint gr gc mb nobs seed stream = some e →
      e.robot.robot_pos = (0, 0) ∧ (0, 0) ∉ e.obstacles ∧
      e.robot.target_pos ∉ e.obstacles) := by
  refine ⟨?_, ?_, ?_, ?_⟩
  · intro e a hc
    simp only [advCollides, decide_eq_true_eq] at hc
    obtain ⟨⟨gr, gc, rp, tp⟩, mb, nob, bat, obs⟩ := e
    cases a <;> simp_all [AdvancedEnv.step, WarehouseRobot.perform_action]
  · intro e a hc hbat hgoal
    simp only [advCollides, decide_eq_true_eq] at hc
    simp only [advGoal] at hgoal
    rw [adv_step_reward_eq]
    have hb : ¬ (e.battery - 1 ≤ 0) := by omega
    simp [hc, hb, hgoal]
  · intro e a hmem
    have hobs : (AdvancedEnv.step e a).1.obstacles = e.obstacles := rfl
    rw [hobs, adv_step_pos_eq]
    split_ifs with h
    · exact hmem
    · exact h
  · intro randint gr gc mb nobs seed stream e h
    simp only [AdvancedEnv.reset] at h
    rcases hres : placeObstacles
        (WarehouseRobot.reset randint gr gc seed).robot_pos
        (WarehouseRobot.reset randint gr gc seed).target_pos nobs [] stream with _ | res
    · rw [hres] at h
      exact absurd h (by simp)
    · rw [hres] at h
      have he := Option.some_inj.mp h
      subst he
      have hexc := placeObstacles_excludes
        (WarehouseRobot.reset randint gr gc seed).robot_pos
        (WarehouseRobot.reset randint gr gc seed).target_pos nobs
        stream [] res hres
      refine ⟨rfl, ?_, ?_⟩
      · intro hin
        rcases hexc (0, 0) hin with h0 | h0
        · simp at h0
        · exact h0.1 rfl
      · intro hin
        rcases hexc (WarehouseRobot.reset randint gr gc seed).target_pos hin with h0 | h0
        · simp at h0
        · exact h0.2 rfl

/-- Witness for advanced_step_obstacle_spec: in a concrete advanced state
with the robot on the target-adjacent cell (2,3) and an obstacle at
(2,4), a RIGHT step collides, keeps the robot at (2,3), decrements the
battery and returns reward -(1/5); and a concrete reset placing one
obstacle yields obstacles excluding (0,0) and the target. -/
theorem advanced_step_obstacle_witness :
    (AdvancedEnv.step ⟨⟨4, 5, (2, 3), (3, 3)⟩, 30, 1, 30, [(2, 4)]⟩ .RIGHT).1 =
      ⟨⟨4, 5, (2, 3), (3, 3)⟩, 30, 1, 29, [(2, 4)]⟩ ∧
    (AdvancedEnv.step ⟨⟨4, 5, (2, 3), (3, 3)⟩, 30, 1, 30, [(2, 4)]⟩ .RIGHT).2.reward = -(1/5) ∧
    ((0 : Int), (0 : Int)) ∉
      [((2 : Int), (2 : Int))] := by
  refine ⟨?_, ?_, ?_⟩
  · exact advanced_step_obstacle_spec.1
      ⟨⟨4, 5, (2, 3), (3, 3)⟩, 30, 1, 30, [(2, 4)]⟩ .RIGHT (by decide)
  · exact advanced_step_obstacle_spec.2.1
      ⟨⟨4, 5, (2, 3), (3, 3)⟩, 30, 1, 30, [(2, 4)]⟩ .RIGHT (by decide) (by decide)
      (by decide)
  · exact (advanced_step_obstacle_spec.2.2.2 (fun _ _ lo _ => lo) 4 5 30 1 7
      [(0, 0), (1, 1), (2, 2)]
      ⟨⟨4, 5, (0, 0), (1, 1)⟩, 30, 1, 30, [(2, 2)]⟩ rfl).2.1

/-- C4: for the basic variant's step with any of the four actions, from a
non-boundary position the move changes exactly one coordinate by exactly
one unit in the action's direction; an action pushing past a grid edge
(its clamp guard failing) leaves the position unchanged; reward = 1 and
terminated = true exactly when the robot stands on target_position after
the move, otherwise reward = 0 and terminated = false; and truncated is
always false. -/
theorem basic_step_spec (w : WarehouseRobot) (a : RobotAction) :
    (WarehouseRobotEnv.step w a).2.truncated = false ∧
    (((WarehouseRobotEnv.step w a).2.reward = 1 ∧
      (WarehouseRobotEnv.step w a).2.terminated = true) ↔
      (WarehouseRobotEnv.step w a).1.robot_pos = w.target_pos) ∧
    ((WarehouseRobotEnv.step w a).1.robot_pos ≠ w.target_pos →
      (WarehouseRobotEnv.step w a).2.reward = 0 ∧
      (WarehouseRobotEnv.step w a).2.terminated = false) ∧
    (0 < w.robot_pos.1 → w.robot_pos.1 < w.grid_rows - 1 →
     0 < w.robot_pos.2 → w.robot_pos.2 < w.grid_cols - 1 →
      (WarehouseRobotEnv.step w a).1.robot_pos =
        (match a with
         | .LEFT => (w.robot_pos.1, w.robot_pos.2 - 1)
         | .DOWN => (w.robot_pos.1 + 1, w.robot_pos.2)
         | .RIGHT => (w.robot_pos.1, w.robot_pos.2 + 1)
         | .UP => (w.robot_pos.1 - 1, w.robot_pos.2))) ∧
    (((a = .LEFT ∧ ¬ w.robot_pos.2 > 0) ∨
      (a = .RIGHT ∧ ¬ w.robot_pos.2 < w.grid_cols - 1) ∨
      (a = .UP ∧ ¬ w.robot_pos.1 > 0) ∨
      (a = .DOWN ∧ ¬ w.robot_pos.1 < w.grid_rows - 1)) →
      (WarehouseRobotEnv.step w a).1.robot_pos = w.robot_pos) := by
  cases a <;>
    simp only [WarehouseRobotEnv.step, WarehouseRobot.perform_action] <;>
    split_ifs <;>
    simp_all

/-- Witness for basic_step_spec on a 4 by 5 grid with the robot at (1,2)
and the target at (2,2): a DOWN step moves to (2,2), reaching the target
with reward 1, and the non-boundary movement clause applies. -/
theorem basic_step_spec_witness :
    (WarehouseRobotEnv.step ⟨4, 5, (1, 2), (2, 2)⟩ .DOWN).1.robot_pos = (2, 2) ∧
    (WarehouseRobotEnv.step ⟨4, 5, (1, 2), (2, 2)⟩ .DOWN).2.reward = 1 ∧
    (WarehouseRobotEnv.step ⟨4, 5, (0, 0), (2, 2)⟩ .LEFT).1.robot_pos = (0, 0) := by
  refine ⟨?_, ?_, ?_⟩
  · exact (basic_step_spec ⟨4, 5, (1, 2), (2, 2)⟩ .DOWN).2.2.2.1
      (by decide) (by decide) (by decide) (by decide)
  · exact ((basic_step_spec ⟨4, 5, (1, 2), (2, 2)⟩ .DOWN).2.1.mpr (by decide)).1
  · exact (basic_step_spec ⟨4, 5, (0, 0), (2, 2)⟩ .LEFT).2.2.2.2
      (Or.inl ⟨rfl, by decide⟩)

/-- C10: perform_action and both step functions change nothing but the
robot position (and, in the advanced variant, the battery): grid_rows,
grid_cols and target_pos are preserved everywhere, and the advanced step
additionally preserves the obstacle list, num_obstacles and max_battery. -/
theorem step_frame_spec :
    (∀ (w : WarehouseRobot) (a : RobotAction),
      (w.perform_action a).1.grid_rows = w.grid_rows ∧
      (w.perform_action a).1.grid_cols = w.grid_cols ∧
      (w.perform_action a).1.target_pos = w.target_pos) ∧
    (∀ (w : WarehouseRobot) (a : RobotAction),
      (WarehouseRobotEnv.step w a).1.grid_rows = w.grid_rows ∧
      (WarehouseRobotEnv.step w a).1.grid_cols = w.grid_cols ∧
      (WarehouseRobotEnv.step w a).1.target_pos = w.target_pos) ∧
    (∀ (e : AdvancedEnv) (a : RobotAction),
      (AdvancedEnv.step e a).1.robot.grid_rows = e.robot.grid_rows ∧
      (AdvancedEnv.step e a).1.robot.grid_cols = e.robot.grid_cols ∧
      (AdvancedEnv.step e a).1.robot.target_pos = e.robot.target_pos ∧
      (AdvancedEnv.step e a).1.obstacles = e.obstacles ∧
      (AdvancedEnv.step e a).1.num_obstacles = e.num_obstacles ∧
      (AdvancedEnv.step e a).1.max_battery = e.max_battery) := by
  refine ⟨?_, ?_, ?_⟩ <;> intro w a <;> cases a <;>
    simp only [AdvancedEnv.step, WarehouseRobotEnv.step,
      WarehouseRobot.perform_action] <;>
    (try split_ifs) <;> simp

/-- C7: the greedy candidate list has at most one element, built as DOWN
(1) when robot_row < target_row, UP (3) when robot_row > target_row, and
only with the rows equal RIGHT (2) when robot_col < target_col or LEFT
(0) when robot_col > target_col; the selected action is the single
candidate whenever one exists, and the uniformly random fallback (none)
happens exactly when the robot is already at the target. -/
theorem greedy_select_spec (robot_row robot_col target_row target_col : Int) :
    (greedyCandidates robot_row robot_col target_row target_col).length ≤ 1 ∧
    (robot_row < target_row →
      greedyCandidates robot_row robot_col target_row target_col = [1]) ∧
    (robot_row > target_row →
      greedyCandidates robot_row robot_col target_row target_col = [3]) ∧
    (robot_row = target_row → robot_col < target_col →
      greedyCandidates robot_row robot_col target_row target_col = [2]) ∧
    (robot_row = target_row → robot_col > target_col →
      greedyCandidates robot_row robot_col target_row target_col = [0]) ∧
    (∀ n : Int,
      greedySelect robot_row robot_col target_row target_col = some n ↔
      greedyCandidates robot_row robot_col target_row target_col = [n]) ∧
    (greedySelect robot_row robot_col target_row target_col = none ↔
      (robot_row = target_row ∧ robot_col = target_col)) := by
  unfold greedySelect greedyCandidates
  split_ifs <;> simp_all <;> omega

/-- Witness for greedy_select_spec at the observation (0, 0, 2, 3): the
rows differ, so the single candidate is DOWN (1). -/
theorem greedy_select_spec_witness :
    greedyCandidates 0 0 2 3 = [1] ∧ greedySelect 0 0 2 3 = some 1 := by
  exact ⟨(greedy_select_spec 0 0 2 3).2.1 (by decide),
    ((greedy_select_spec 0 0 2 3).2.2.2.2.2.1 1).mpr
      ((greedy_select_spec 0 0 2 3).2.1 (by decide))⟩

/-- Greedy agent as plugged into the Trainer: reads the first four
observation fields and returns the unique candidate action. The uniform
random fallback (robot on the target) and the invalid-observation
branches are determinized to LEFT; no run below ever reaches them. -/
def greedyAgentFun (obs : List Int) : RobotAction :=
  match obs with
  | rr :: cc :: tr :: tc :: _ =>
    match greedySelect rr cc tr tc with
    | some n => (robotActionOfInt n).getD .LEFT
    | none => .LEFT
  | _ => .LEFT

/-- The success accumulator of the run_episode loop stays false until a
terminated step with strictly positive reward ends the loop, so the
returned flag records exactly that property of the final step. -/
theorem run_episodeAux_success {σ α : Type} (stepf : σ → α → σ × StepResult)
    (agent : List Int → α) (cap : Option Nat) :
    ∀ (fuel : Nat) (st : σ) (obs : List Int) (total : ℚ) (steps : Nat)
      (out : ℚ × Bool × Nat) (last : StepResult),
      run_episodeAux stepf agent cap fuel st obs total steps false =
        some (out, last) →
      out.2.1 = (last.terminated && decide (last.reward > 0)) := by
  intro fuel
  induction fuel with
  | zero =>
    intro st obs total steps out last h
    simp [run_episodeAux] at h
  | succ n ih =>
    intro st obs total steps out last h
    simp only [run_episodeAux] at h
    rcases cap with _ | c
    · cases hterm : (stepf st (agent obs)).2.terminated <;>
        cases htrunc : (stepf st (agent obs)).2.truncated <;>
        simp only [hterm, htrunc, Bool.false_and, Bool.true_and, Bool.or_false,
          Bool.false_or, Bool.true_or, Bool.or_true, if_true, if_false,
          Bool.false_eq_true, ite_true, ite_false] at h
      · exact ih _ _ _ _ _ _ (by simpa using h)
      all_goals
        simp only [Option.some_inj, Prod.mk.injEq] at h
        obtain ⟨h1, rfl⟩ := h
        subst h1
        simp [hterm]
    · by_cases hge : steps + 1 ≥ c <;>
        cases hterm : (stepf st (agent obs)).2.terminated <;>
        cases htrunc : (stepf st (agent obs)).2.truncated <;>
        simp only [hterm, htrunc, hge, Bool.false_and, Bool.true_and, Bool.or_false,
          Bool.false_or, Bool.true_or, Bool.or_true, if_true, if_false,
          Bool.false_eq_true, ite_true, ite_false] at h
      case neg.false.false =>
        exact ih _ _ _ _ _ _ (by simpa using h)
      all_goals
        simp only [Option.some_inj, Prod.mk.injEq] at h
        obtain ⟨h1, rfl⟩ := h
        subst h1
        simp [hterm]

/-- The run_episode loop only ends through the environment's terminated
or truncated flag or through the step cap. -/
theorem run_episodeAux_exit {σ α : Type} (stepf : σ → α → σ × StepResult)
    (agent : List Int → α) (cap : Option Nat) :
    ∀ (fuel : Nat) (st : σ) (obs : List Int) (total : ℚ) (steps : Nat)
      (success : Bool) (out : ℚ × Bool × Nat) (last : StepResult),
      run_episodeAux stepf agent cap fuel st obs total steps success =
        some (out, last) →
      last.terminated = true ∨ last.truncated = true ∨
        ∃ c, cap = some c ∧ out.2.2 ≥ c := by
  intro fuel
  induction fuel with
  | zero =>
    intro st obs total steps success out last h
    simp [run_episodeAux] at h
  | succ n ih =>
    intro st obs total steps success out last h
    simp only [run_episodeAux] at h
    rcases cap with _ | c
    · cases hterm : (stepf st (agent obs)).2.terminated <;>
        cases htrunc : (stepf st (agent obs)).2.truncated <;>
        simp only [hterm, htrunc, Bool.or_false, Bool.false_or, Bool.true_or,
          Bool.or_true, if_true, if_false, Bool.false_eq_true, ite_true,
          ite_false] at h
      · exact ih _ _ _ _ _ _ _ h
      all_goals
        simp only [Option.some_inj, Prod.mk.injEq] at h
        obtain ⟨h1, rfl⟩ := h
        simp [hterm, htrunc]
    · by_cases hge : steps + 1 ≥ c <;>
        cases hterm : (stepf st (agent obs)).2.terminated <;>
        cases htrunc : (stepf st (agent obs)).2.truncated <;>
        simp only [hterm, htrunc, hge, Bool.or_false, Bool.false_or,
          Bool.true_or, Bool.or_true, if_true, if_false, Bool.false_eq_true,
          ite_true, ite_false] at h
      case neg.false.false =>
        exact ih _ _ _ _ _ _ _ h
      all_goals
        simp only [Option.some_inj, Prod.mk.injEq] at h
        obtain ⟨h1, rfl⟩ := h
        subst h1
        simp_all

/-- With a positive step cap c, a run entered with fewer than c steps
already taken never returns a step count above c. -/
theorem run_episodeAux_steps_le {σ α : Type} (stepf : σ → α → σ × StepResult)
    (agent : List Int → α) (c : Nat) :
    ∀ (fuel : Nat) (st : σ) (obs : List Int) (total : ℚ) (steps : Nat)
      (success : Bool) (out : ℚ × Bool × Nat) (last : StepResult),
      steps < c →
      run_episodeAux stepf agent (some c) fuel st obs total steps success =
        some (out, last) →
      out.2.2 ≤ c := by
  intro fuel
  induction fuel with
  | zero =>
    intro st obs total steps success out last hlt h
    simp [run_episodeAux] at h
  | succ n ih =>
    intro st obs total steps success out last hlt h
    simp only [run_episodeAux] at h
    by_cases hge : steps + 1 ≥ c
    · simp only [hge, if_true, ite_true] at h
      simp only [Option.some_inj, Prod.mk.injEq] at h
      obtain ⟨h1, rfl⟩ := h
      subst h1
      simpa using hlt
    · simp only [hge, if_false, ite_false] at h
      by_cases hdone : ((stepf st (agent obs)).2.terminated ||
          (stepf st (agent obs)).2.truncated) = true
      · rw [if_pos hdone] at h
        simp only [Option.some_inj, Prod.mk.injEq] at h
        obtain ⟨h1, rfl⟩ := h
        subst h1
        simpa using hlt
      · rw [if_neg hdone] at h
        exact ih _ _ _ _ _ _ _ (by omega) h

/-- With a positive step cap c and at least c - steps fuel, the loop
always returns (the Python loop provably ends under a cap). -/
theorem run_episodeAux_isSome {σ α : Type} (stepf : σ → α → σ × StepResult)
    (agent : List Int → α) (c : Nat) :
    ∀ (fuel : Nat) (st : σ) (obs : List Int) (total : ℚ) (steps : Nat)
      (success : Bool),
      steps < c → c ≤ steps + fuel →
      (run_episodeAux stepf agent (some c) fuel st obs total steps
        success).isSome = true := by
  intro fuel
  induction fuel with
  | zero =>
    intro st obs total steps success hlt hle
    omega
  | succ n ih =>
    intro st obs total steps success hlt hle
    simp only [run_episodeAux]
    by_cases hge : steps + 1 ≥ c
    · simp [hge]
    · simp only [hge, if_false, ite_false]
      split_ifs <;>
        first
        | simp
        | exact ih _ _ _ _ _ (by omega) (by omega)

/-- C5 amended: the run_episode loop ends exactly through terminated,
truncated or the step cap; with a cap set to a positive value the
returned step count never exceeds the cap (and the loop provably
returns given that much fuel); the cap exit is not reported through the
success flag, which is true exactly when the final step had terminated =
true with strictly positive reward — so a battery-exhaustion termination
with reward -1 is not a success and non-terminal collision-penalty steps
never set it. -/
theorem run_episode_spec {σ α : Type} (stepf : σ → α → σ × StepResult)
    (agent : List Int → α) (cap : Option Nat) (fuel : Nat)
    (resetSt : σ × List Int) :
    (∀ (out : ℚ × Bool × Nat) (last : StepResult),
      run_episodeAux stepf agent cap fuel resetSt.1 resetSt.2 0 0 false =
        some (out, last) →
      run_episode stepf agent cap fuel resetSt = some out ∧
      out.2.1 = (last.terminated && decide (last.reward > 0)) ∧
      (last.terminated = true → ¬ (last.reward > 0) → out.2.1 = false) ∧
      (last.terminated = true ∨ last.truncated = true ∨
        ∃ c, cap = some c ∧ out.2.2 ≥ c)) ∧
    (∀ c : Nat, cap = some c → 0 < c →
      ∀ (out : ℚ × Bool × Nat) (last : StepResult),
        run_episodeAux stepf agent cap fuel resetSt.1 resetSt.2 0 0 false =
          some (out, last) →
        out.2.2 ≤ c) ∧
    (∀ c : Nat, cap = some c → 0 < c → c ≤ fuel →
      (run_episode stepf agent cap fuel resetSt).isSome = true) := by
  refine ⟨?_, ?_, ?_⟩
  · intro out last h
    have hs := run_episodeAux_success stepf agent cap fuel
      resetSt.1 resetSt.2 0 0 out last h
    have hx := run_episodeAux_exit stepf agent cap fuel
      resetSt.1 resetSt.2 0 0 false out last h
    refine ⟨?_, hs, ?_, hx⟩
    · simp [run_episode, h]
    · intro hterm hneg
      rw [hs, hterm]
      simpa using hneg
  · intro c hcap hpos out last h
    rw [hcap] at h
    exact run_episodeAux_steps_le stepf agent c fuel
      resetSt.1 resetSt.2 0 0 false out last hpos h
  · intro c hcap hpos hfuel
    rw [hcap]
    simp only [run_episode, hcap]
    have := run_episodeAux_isSome stepf agent c fuel
      resetSt.1 resetSt.2 0 0 false hpos (by omega)
    rcases hres : run_episodeAux stepf agent (some c) fuel
        resetSt.1 resetSt.2 0 0 false with _ | p
    · rw [hres] at this
      simp at this
    · simp

/-- Witness for run_episode_spec: the basic environment on a 4 by 5 grid
with target (1,1), the greedy agent and cap 3 ends the episode after 2
steps with the goal reached, total reward 1 and success = true; the cap
bound 2 ≤ 3 follows from the theorem. -/
theorem run_episode_spec_witness :
    run_episode (fun (w : WarehouseRobot) (a : RobotAction) =>
      WarehouseRobotEnv.step w a) greedyAgentFun (some 3) 10
      (⟨4, 5, (0, 0), (1, 1)⟩, basicObs ⟨4, 5, (0, 0), (1, 1)⟩) =
      some (1, true, 2) ∧
    (2 : Nat) ≤ 3 := by
  have haux : run_episodeAux (fun (w : WarehouseRobot) (a : RobotAction) =>
      WarehouseRobotEnv.step w a) greedyAgentFun (some 3) 10
      (⟨4, 5, (0, 0), (1, 1)⟩ : WarehouseRobot)
      (basicObs ⟨4, 5, (0, 0), (1, 1)⟩) 0 0 false =
      some ((1, true, 2), ⟨[1, 1, 1, 1], 1, true, false⟩) := by
    norm_num [run_episodeAux, WarehouseRobotEnv.step,
      WarehouseRobot.perform_action, greedyAgentFun, greedySelect,
      greedyCandidates, robotActionOfInt, basicObs]
  have h := (run_episode_spec (fun (w : WarehouseRobot) (a : RobotAction) =>
      WarehouseRobotEnv.step w a) greedyAgentFun (some 3) 10
      (⟨4, 5, (0, 0), (1, 1)⟩, basicObs ⟨4, 5, (0, 0), (1, 1)⟩)).2.1 3 rfl
      (by decide) (1, true, 2) ⟨[1, 1, 1, 1], 1, true, false⟩ haux
  refine ⟨?_, h⟩
  exact ((run_episode_spec (fun (w : WarehouseRobot) (a : RobotAction) =>
      WarehouseRobotEnv.step w a) greedyAgentFun (some 3) 10
      (⟨4, 5, (0, 0), (1, 1)⟩, basicObs ⟨4, 5, (0, 0), (1, 1)⟩)).1
      (1, true, 2) ⟨[1, 1, 1, 1], 1, true, false⟩ haux).1

/-- C5 as frozen is false on a cap of zero: the loop body always runs at
least once (done starts False and the cap is only checked after a step),
so with max_steps_per_episode = 0 the episode takes 1 step, exceeding the
configured cap 0. -/
theorem run_episode_cap_counterexample :
    run_episode (fun (w : WarehouseRobot) (a : RobotAction) =>
      WarehouseRobotEnv.step w a) greedyAgentFun (some 0) 10
      (⟨4, 5, (0, 0), (2, 3)⟩, basicObs ⟨4, 5, (0, 0), (2, 3)⟩) =
      some (0, false, 1) ∧ ¬ ((1 : Nat) ≤ 0) := by
  constructor
  · norm_num [run_episode, run_episodeAux, WarehouseRobotEnv.step,
      WarehouseRobot.perform_action, greedyAgentFun, greedySelect,
      greedyCandidates, robotActionOfInt, basicObs]
  · decide

/-- Manhattan distance vanishes exactly on equal positions. -/
theorem manhattan_eq_zero (p q : Int × Int) : manhattan p q = 0 ↔ p = q := by
  rw [Prod.ext_iff]
  simp only [manhattan]
  omega

/-- A greedy-driven basic step preserves the target position and the grid
dimensions. -/
theorem greedyEnvStep_frame (w : WarehouseRobot) :
    (greedyEnvStep w).target_pos = w.target_pos ∧
    (greedyEnvStep w).grid_rows = w.grid_rows ∧
    (greedyEnvStep w).grid_cols = w.grid_cols := by
  unfold greedyEnvStep
  cases h : greedySelect w.robot_pos.1 w.robot_pos.2 w.target_pos.1 w.target_pos.2 with
  | none => exact ⟨rfl, rfl, rfl⟩
  | some n =>
    dsimp only
    cases h2 : robotActionOfInt n with
    | none => exact ⟨rfl, rfl, rfl⟩
    | some a =>
      exact ⟨perform_action_target w a, (perform_action_dims w a).1,
        (perform_action_dims w a).2⟩

/-- From any state whose target lies inside the grid and whose robot is
off the target, one greedy-driven basic step decreases the Manhattan
distance to the target by exactly one. -/
theorem greedy_step_dist (w : WarehouseRobot)
    (ht1 : 0 ≤ w.target_pos.1) (ht2 : w.target_pos.1 < w.grid_rows)
    (ht3 : 0 ≤ w.target_pos.2) (ht4 : w.target_pos.2 < w.grid_cols)
    (hne : w.robot_pos ≠ w.target_pos) :
    manhattan (greedyEnvStep w).robot_pos w.target_pos + 1 =
      manhattan w.robot_pos w.target_pos := by
  rcases lt_trichotomy w.robot_pos.1 w.target_pos.1 with hr | hr | hr
  · have hsel : greedySelect w.robot_pos.1 w.robot_pos.2 w.target_pos.1
        w.target_pos.2 = some 1 := by
      simp [greedySelect, greedyCandidates, hr]
    have hcond : w.robot_pos.1 < w.grid_rows - 1 := by omega
    unfold greedyEnvStep
    rw [hsel]
    dsimp only
    have hact : robotActionOfInt 1 = some RobotAction.DOWN := by decide
    rw [hact]
    simp [WarehouseRobotEnv.step, WarehouseRobot.perform_action, manhattan,
      hcond]
    omega
  · rcases lt_trichotomy w.robot_pos.2 w.target_pos.2 with hc | hc | hc
    · have hsel : greedySelect w.robot_pos.1 w.robot_pos.2 w.target_pos.1
          w.target_pos.2 = some 2 := by
        simp [greedySelect, greedyCandidates, hr, hc]
      have hcond : w.robot_pos.2 < w.grid_cols - 1 := by omega
      unfold greedyEnvStep
      rw [hsel]
      dsimp only
      have hact : robotActionOfInt 2 = some RobotAction.RIGHT := by decide
      rw [hact]
      simp [WarehouseRobotEnv.step, WarehouseRobot.perform_action, manhattan,
        hcond]
      omega
    · exact absurd (Prod.ext hr hc) hne
    · have hsel : greedySelect w.robot_pos.1 w.robot_pos.2 w.target_pos.1
          w.target_pos.2 = some 0 := by
        simp [greedySelect, greedyCandidates, hr, hc, not_lt_of_gt hc]
      have hcond : w.robot_pos.2 > 0 := by omega
      unfold greedyEnvStep
      rw [hsel]
      dsimp only
      have hact : robotActionOfInt 0 = some RobotAction.LEFT := by decide
      rw [hact]
      simp [WarehouseRobotEnv.step, WarehouseRobot.perform_action, manhattan,
        hcond]
      omega
  · have hsel : greedySelect w.robot_pos.1 w.robot_pos.2 w.target_pos.1
        w.target_pos.2 = some 3 := by
      simp [greedySelect, greedyCandidates, hr, not_lt_of_gt hr]
    have hcond : w.robot_pos.1 > 0 := by omega
    unfold greedyEnvStep
    rw [hsel]
    dsimp only
    have hact : robotActionOfInt 3 = some RobotAction.UP := by decide
    rw [hact]
    simp [WarehouseRobotEnv.step, WarehouseRobot.perform_action, manhattan,
      hcond]
    omega

/-- Iterating the greedy-driven basic step k ≤ d times from a state at
Manhattan distance d leaves distance d - k, with the target unmoved. -/
theorem greedy_iter_dist :
    ∀ (k : Nat) (w : WarehouseRobot),
      0 ≤ w.target_pos.1 → w.target_pos.1 < w.grid_rows →
      0 ≤ w.target_pos.2 → w.target_pos.2 < w.grid_cols →
      k ≤ manhattan w.robot_pos w.target_pos →
      manhattan (greedyIter k w).robot_pos w.target_pos =
        manhattan w.robot_pos w.target_pos - k ∧
      (greedyIter k w).target_pos = w.target_pos := by
  intro k
  induction k with
  | zero =>
    intro w h1 h2 h3 h4 hk
    exact ⟨by simp [greedyIter], rfl⟩
  | succ n ih =>
    intro w h1 h2 h3 h4 hk
    have hne : w.robot_pos ≠ w.target_pos := by
      intro he
      rw [← manhattan_eq_zero] at he
      omega
    have hstep := greedy_step_dist w h1 h2 h3 h4 hne
    obtain ⟨hf1, hf2, hf3⟩ := greedyEnvStep_frame w
    have hih := ih (greedyEnvStep w) (by rw [hf1]; exact h1)
      (by rw [hf1, hf2]; exact h2) (by rw [hf1]; exact h3)
      (by rw [hf1, hf3]; exact h4) (by rw [hf1]; omega)
    rw [hf1] at hih
    have hiter : greedyIter (n + 1) w = greedyIter n (greedyEnvStep w) := rfl
    rw [hiter]
    exact ⟨by rw [hih.1]; omega, hih.2⟩

/-- C6: in the basic environment, from any state with the target inside
the grid and the robot off the target, the greedy-selected action applied
through step decreases the Manhattan distance to the target by exactly
one; iterating it reaches the target in exactly the initial distance many
steps and visits no target cell earlier (no oscillation); and on the 4 by
5 grid with robot (0,0) and target (2,3) the selected actions are DOWN,
DOWN, RIGHT, RIGHT, RIGHT, and the greedy episode ends after exactly 5
steps with final reward 1 and success = true. -/
theorem greedy_policy_spec (w : WarehouseRobot)
    (ht1 : 0 ≤ w.target_pos.1) (ht2 : w.target_pos.1 < w.grid_rows)
    (ht3 : 0 ≤ w.target_pos.2) (ht4 : w.target_pos.2 < w.grid_cols)
    (hne : w.robot_pos ≠ w.target_pos) :
    (manhattan (greedyEnvStep w).robot_pos w.target_pos + 1 =
      manhattan w.robot_pos w.target_pos) ∧
    ((greedyIter (manhattan w.robot_pos w.target_pos) w).robot_pos =
      w.target_pos) ∧
    (∀ k, k < manhattan w.robot_pos w.target_pos →
      (greedyIter k w).robot_pos ≠ w.target_pos) ∧
    (greedySelect 0 0 2 3 = some 1 ∧ greedySelect 1 0 2 3 = some 1 ∧
     greedySelect 2 0 2 3 = some 2 ∧ greedySelect 2 1 2 3 = some 2 ∧
     greedySelect 2 2 2 3 = some 2) ∧
    run_episode (fun (v : WarehouseRobot) (a : RobotAction) =>
      WarehouseRobotEnv.step v a) greedyAgentFun none 6
      (⟨4, 5, (0, 0), (2, 3)⟩, basicObs ⟨4, 5, (0, 0), (2, 3)⟩) =
      some (1, true, 5) := by
  refine ⟨greedy_step_dist w ht1 ht2 ht3 ht4 hne, ?_, ?_, by decide, ?_⟩
  · have h := greedy_iter_dist (manhattan w.robot_pos w.target_pos) w
      ht1 ht2 ht3 ht4 (le_refl _)
    have hz : manhattan (greedyIter (manhattan w.robot_pos w.target_pos) w).robot_pos
        w.target_pos = 0 := by omega
    exact (manhattan_eq_zero _ _).mp hz
  · intro k hk
    have h := greedy_iter_dist k w ht1 ht2 ht3 ht4 (le_of_lt hk)
    intro he
    rw [← manhattan_eq_zero] at he
    omega
  · norm_num [run_episode, run_episodeAux, WarehouseRobotEnv.step,
      WarehouseRobot.perform_action, greedyAgentFun, greedySelect,
      greedyCandidates, robotActionOfInt, basicObs]

/-- Witness for greedy_policy_spec on the 4 by 5 grid with robot (0,0)
and target (2,3): the initial Manhattan distance is 5 and five greedy
steps land the robot exactly on the target. -/
theorem greedy_policy_spec_witness :
    manhattan (0, 0) (2, 3) = 5 ∧
    (greedyIter 5 ⟨4, 5, (0, 0), (2, 3)⟩).robot_pos = (2, 3) := by
  have h := greedy_policy_spec ⟨4, 5, (0, 0), (2, 3)⟩
    (by decide) (by decide) (by decide) (by decide) (by decide)
  exact ⟨by decide, h.2.1⟩

/-- The statistics fold of train/evaluate computes the reward sum, the
success count and the step sum over the episode list. -/
theorem foldl_stats (f : Nat → ℚ × Bool × Nat) :
    ∀ (l : List Nat) (acc : ℚ × Nat × Nat),
      l.foldl
        (fun (acc : ℚ × Nat × Nat) i =>
          let out := f i
          (acc.1 + out.1, acc.2.1 + (if out.2.1 then 1 else 0),
           acc.2.2 + out.2.2)) acc =
      (acc.1 + (l.map (fun i => (f i).1)).sum,
       acc.2.1 + (l.filter (fun i => (f i).2.1)).length,
       acc.2.2 + (l.map (fun i => (f i).2.2)).sum) := by
  intro l
  induction l with
  | nil => intro acc; simp
  | cons x xs ih =>
    intro acc
    rw [List.foldl_cons, ih]
    rcases hb : (f x).2.1 with hfalse | htrue <;>
      simp [List.filter_cons, hb, add_assoc, add_comm, add_left_comm]

/-- C9: Trainer.train and Trainer.evaluate with num_episodes = 0 return
success_rate = 0, avg_reward = 0 and avg_steps = 0 (the divisions are
guarded rather than raising), and with num_episodes = n > 0 they return
the success count over n, the reward sum over n and the step sum over n. -/
theorem trainer_aggregate_spec (episode : Bool → Nat → ℚ × Bool × Nat)
    (n : Nat) :
    Trainer.train episode 0 = (0, 0, 0) ∧
    Trainer.evaluate episode 0 = (0, 0, 0) ∧
    (0 < n →
      Trainer.train episode n =
        (((((List.range n).filter (fun i => (episode true i).2.1)).length : ℚ)) / (n : ℚ),
         (((List.range n).map (fun i => (episode true i).1)).sum) / (n : ℚ),
         ((((List.range n).map (fun i => (episode true i).2.2)).sum : ℚ)) / (n : ℚ)) ∧
      Trainer.evaluate episode n =
        (((((List.range n).filter (fun i => (episode false i).2.1)).length : ℚ)) / (n : ℚ),
         (((List.range n).map (fun i => (episode false i).1)).sum) / (n : ℚ),
         ((((List.range n).map (fun i => (episode false i).2.2)).sum : ℚ)) / (n : ℚ))) := by
  refine ⟨?_, ?_, ?_⟩
  · simp [Trainer.train, aggregateStats]
  · simp [Trainer.evaluate, aggregateStats]
  · intro hn
    constructor <;>
      · simp only [Trainer.train, Trainer.evaluate, aggregateStats,
          foldl_stats, zero_add, Nat.cast_sum]
        simp [hn]

/-- Witness for trainer_aggregate_spec at two episodes whose outcomes are
(1, success, 5 steps) and (0, failure, 3 steps): success rate 1/2,
average reward 1/2, average steps 4. -/
theorem trainer_aggregate_witness :
    Trainer.train (fun _ i => if i = 0 then ((1 : ℚ), true, 5) else (0, false, 3)) 2 =
      (1 / 2, 1 / 2, 8 / 2) ∧
    Trainer.train (fun _ i => if i = 0 then ((1 : ℚ), true, 5) else (0, false, 3)) 0 =
      (0, 0, 0) := by
  constructor
  · have h := (trainer_aggregate_spec
      (fun _ i => if i = 0 then ((1 : ℚ), true, 5) else (0, false, 3)) 2).2.2
      (by decide)
    rw [h.1]
    norm_num [List.range_succ]
  · exact (trainer_aggregate_spec
      (fun _ i => if i = 0 then ((1 : ℚ), true, 5) else (0, false, 3)) 0).1

/-- C8: reset places the robot at (0,0) and draws the target through the
seeded generator, rows from the inclusive randint range 1..grid_rows-1
and columns from 1..grid_cols-1 (row 0 and column 0 excluded); the draw
is a function of the seed and the dimensions alone, so two resets with
the same seed on same-sized grids give the same target; and the initial
observation returned by the environment lists the robot and target
coordinates. The uniformity of each draw over its inclusive range is the
contract of random.randint, carried here by the abstract generator. -/
theorem reset_spec (randint : Int → Nat → Int → Int → Int)
    (grid_rows grid_cols seed : Int)
    (hr : ∀ s k lo hi, lo ≤ hi →
      lo ≤ randint s k lo hi ∧ randint s k lo hi ≤ hi)
    (hrows : 2 ≤ grid_rows) (hcols : 2 ≤ grid_cols) :
    (WarehouseRobot.reset randint grid_rows grid_cols seed).robot_pos = (0, 0) ∧
    (1 ≤ (WarehouseRobot.reset randint grid_rows grid_cols seed).target_pos.1 ∧
     (WarehouseRobot.reset randint grid_rows grid_cols seed).target_pos.1 ≤ grid_rows - 1) ∧
    (1 ≤ (WarehouseRobot.reset randint grid_rows grid_cols seed).target_pos.2 ∧
     (WarehouseRobot.reset randint grid_rows grid_cols seed).target_pos.2 ≤ grid_cols - 1) ∧
    (∀ w1 w2 : WarehouseRobot,
      w1 = WarehouseRobot.reset randint grid_rows grid_cols seed →
      w2 = WarehouseRobot.reset randint grid_rows grid_cols seed →
      w1.target_pos = w2.target_pos) ∧
    (WarehouseRobotEnv.reset randint grid_rows grid_cols seed).2 =
      [0, 0,
       (WarehouseRobot.reset randint grid_rows grid_cols seed).target_pos.1,
       (WarehouseRobot.reset randint grid_rows grid_cols seed).target_pos.2] := by
  refine ⟨rfl, ?_, ?_, ?_, rfl⟩
  · exact hr seed 0 1 (grid_rows - 1) (by omega)
  · exact hr seed 1 1 (grid_cols - 1) (by omega)
  · intro w1 w2 h1 h2
    rw [h1, h2]

/-- Witness for reset_spec with the generator that always returns the
lower bound, on a 4 by 5 grid: the robot starts at (0,0) and the target
lands at (1,1), inside the allowed rectangle. -/
theorem reset_spec_witness :
    (WarehouseRobot.reset (fun _ _ lo _ => lo) 4 5 7).robot_pos = (0, 0) ∧
    1 ≤ (WarehouseRobot.reset (fun _ _ lo _ => lo) 4 5 7).target_pos.1 := by
  have h := reset_spec (fun _ _ lo _ => lo) 4 5 7
    (fun s k lo hi hle => ⟨le_refl lo, hle⟩) (by decide) (by decide)
  exact ⟨h.1, h.2.1.1⟩

end WarehouseSpec
